import Mathlib

/-!
Verification development for the pithos liquid-democracy Discord bot.

The definitions below are a shallow embedding of the Python sources
`src/bot.py` and `src/liquid_democracy.py`:

* chat messages are values; sending a message is recorded as an output pair
  (target, text);
* the per-user flow objects of `bot.py` (class `FlowNewMotion`) become an
  explicit state record plus a step function;
* the command classes become a recursive tree of command nodes plus a
  dispatch function mirroring `Command.execute`;
* the client state (`PithosClient.flows` and the motion store reached via
  `liquid_democracy.get_session()`) becomes a record of association lists;
* Python's `int(...)` string conversion is modelled by `parsePyInt`
  (optional surrounding whitespace, optional sign, decimal digits with
  single underscores allowed between digits);
* timestamps are modelled as integers counting seconds; `timedelta(days=d)`
  is `d * 86400`.
-/

/-- Where a message is sent: the conversation channel, a user's DM, or the
configured motion announcement channel. -/
inductive MsgTarget where
  | channel
  | user (id : Nat)
  | motionChannel
deriving DecidableEq

/-- One outgoing message: target and text. -/
abbrev BotOutput := MsgTarget × String

/-- Membership test of a list prefix, used to model `str.startswith`. -/
def listPre : List Char → List Char → Bool
  | [], _ => true
  | _ :: _, [] => false
  | a :: as, b :: bs => a == b && listPre as bs

/-- Models Python `content.startswith(pre)`. -/
def strStarts (s pre : String) : Bool := listPre pre.toList s.toList

/-- Models Python `str.lower` (ASCII case folding, as used by the bot). -/
def strLower (s : String) : String := ⟨s.toList.map Char.toLower⟩

/-- Whitespace tokenizer accumulating the current token in reverse;
models Python `str.split()` with no separator argument. -/
def wsTokensAux (cur : List Char) : List Char → List String
  | [] => if cur.isEmpty then [] else [⟨cur.reverse⟩]
  | c :: rest =>
    if c.isWhitespace then
      if cur.isEmpty then wsTokensAux [] rest
      else ⟨cur.reverse⟩ :: wsTokensAux [] rest
    else wsTokensAux (c :: cur) rest

/-- Models Python `str.split()`: split on whitespace runs, no empty tokens. -/
def pyTokens (s : List Char) : List String := wsTokensAux [] s

/-- Models Python `" ".join(tokens)`. -/
def joinSpace : List String → String
  | [] => ""
  | [x] => x
  | x :: xs => x ++ " " ++ joinSpace xs

/-- Models Python `"\n".join(lines)`. -/
def joinNl : List String → String
  | [] => ""
  | [x] => x
  | x :: xs => x ++ "\n" ++ joinNl xs

/-- Numeric value of a decimal digit character. -/
def digitVal (c : Char) : Nat := c.toNat - '0'.toNat

/-- Digit-run parser for Python `int`: after the first digit, further digits
may be separated by single underscores; a trailing or doubled underscore is
an error. `acc` is the value of the digits consumed so far. -/
def pyDigitsVal : Nat → List Char → Option Nat
  | acc, [] => some acc
  | acc, '_' :: c :: rest =>
    if c.isDigit then pyDigitsVal (10 * acc + digitVal c) rest else none
  | _, ['_'] => none
  | acc, c :: rest =>
    if c.isDigit then pyDigitsVal (10 * acc + digitVal c) rest else none

/-- Strip leading and trailing whitespace, as Python `int` does before
parsing. -/
def pyStrip (s : String) : List Char :=
  ((s.toList.dropWhile Char.isWhitespace).reverse.dropWhile Char.isWhitespace).reverse

/-- Models Python `int(s)` on strings: optional surrounding whitespace, an
optional `+`/`-` sign directly followed by decimal digits (underscores
allowed singly between digits); `none` models `ValueError`. -/
def parsePyInt (s : String) : Option Int :=
  match pyStrip s with
  | '+' :: c :: rest =>
    if c.isDigit then (pyDigitsVal (digitVal c) rest).map Int.ofNat else none
  | '-' :: c :: rest =>
    if c.isDigit then (pyDigitsVal (digitVal c) rest).map (fun n => -(n : Int)) else none
  | c :: rest =>
    if c.isDigit then (pyDigitsVal (digitVal c) rest).map Int.ofNat else none
  | [] => none

/-- A stored motion: `description` and `expires` as in the `Motion` ORM
model; the options are kept as their descriptions in insertion order
(`MotionOptions` rows, `option_no` given by position). `description` is an
`Option` because the Python attribute starts out as `None`. -/
structure Motion where
  description : Option String
  expires : Int
  options : List String
deriving DecidableEq

/-- Python renders `None` in an f-string as the text `None`. -/
def descText : Option String → String
  | some s => s
  | none => "None"

/-- The announcement posted to the motion channel on motion creation,
following `FlowNewMotion.step` phase 4 of `bot.py`. -/
def mkAnnounce (uname desc : String) (opts : List String) (expiry : Int) : String :=
  let base := ":loudspeaker: New motion filed by " ++ uname ++ "\n" ++ desc
  let withOpts := opts.enum.foldl
    (fun acc p => acc ++ "\n[" ++ toString (p.fst + 1) ++ "] " ++ p.snd) base
  withOpts ++ "\nVoting ends " ++ toString expiry

/-- State of the motion-creation wizard (`CmdMotion.FlowNewMotion`):
the flow's user (id and display name), the current `phase`, and the
accumulated `description`, `expiry` and `options`. -/
structure FlowNewMotion where
  userId : Nat
  userName : String
  phase : Nat
  description : Option String
  expiry : Option Int
  options : List String
deriving DecidableEq

/-- A freshly constructed `FlowNewMotion`. -/
def initFlow (uid : Nat) (uname : String) : FlowNewMotion :=
  ⟨uid, uname, 0, none, none, []⟩

/-- `FlowNewMotion.is_finished`. -/
def isFinished (s : FlowNewMotion) : Bool := s.phase == 5

/-- `FlowNewMotion.step`: consumes one line of user input, returns the new
flow state, the messages sent, and the motion stored in the database (if
any). `now` models `datetime.datetime.now()` at the time of the step. -/
def FlowNewMotion.step (s : FlowNewMotion) (input : String) (now : Int) :
    FlowNewMotion × List BotOutput × Option Motion :=
  if s.phase = 0 then
    ({ s with description := some input, phase := 1 },
     [(MsgTarget.user s.userId, "Please write a description for option 1")], none)
  else if s.phase = 1 then
    ({ s with options := s.options ++ [input], phase := 2 },
     [(MsgTarget.user s.userId, "Please write a description for option 2")], none)
  else if s.phase = 2 then
    ({ s with options := s.options ++ [input], phase := 3 },
     [(MsgTarget.user s.userId,
       "Please write a description for option 3, or type \x27done\x27 to finish")], none)
  else if s.phase = 3 then
    if strLower input = "done" then
      ({ s with phase := 4 },
       [(MsgTarget.user s.userId, "How many days do you want your motion to last?")], none)
    else
      let s2 := { s with options := s.options ++ [input] }
      (s2,
       [(MsgTarget.user s.userId,
         "Please write a description for option " ++ toString (s2.options.length + 1) ++
         ", or type \x27done\x27 to finish")], none)
  else if s.phase = 4 then
    match parsePyInt input with
    | some duration =>
      let expiry := now + duration * 86400
      let motion : Motion :=
        { description := s.description, expires := expiry, options := s.options }
      ({ s with expiry := some expiry, phase := 5 },
       [(MsgTarget.motionChannel,
         mkAnnounce s.userName (descText s.description) s.options expiry)], some motion)
    | none => (s, [(MsgTarget.user s.userId, "Not a valid number")], none)
  else (s, [], none)

/-- Run the flow over a list of inputs, keeping only the flow state. -/
def runFlowState (now : Int) : FlowNewMotion → List String → FlowNewMotion
  | f, [] => f
  | f, i :: rest => runFlowState now (FlowNewMotion.step f i now).fst rest

/-- Association-list lookup; models Python dict indexing / `in` tests. -/
def lookupA {α : Type} : List (Nat × α) → Nat → Option α
  | [], _ => none
  | (k, v) :: rest, key => if k = key then some v else lookupA rest key

/-- Association-list assignment; models `d[key] = v` on a Python dict. -/
def setA {α : Type} : List (Nat × α) → Nat → α → List (Nat × α)
  | [], key, v => [(key, v)]
  | (k, w) :: rest, key, v =>
    if k = key then (k, v) :: rest else (k, w) :: setA rest key v

/-- Association-list deletion; models `del d[key]` on a Python dict. -/
def removeA {α : Type} : List (Nat × α) → Nat → List (Nat × α)
  | [], _ => []
  | (k, w) :: rest, key =>
    if k = key then removeA rest key else (k, w) :: removeA rest key

/-- A node of the command tree: `name()`, `short_help()`, an optional
overriding `long_help()` (only `CmdHelp` overrides it in the source;
`none` means the base-class `Command.long_help` is used), and the
`subcommands` dict as an association list keyed by the child's name. -/
inductive CmdNode where
  | mk (cname shortHelp : String) (longHelpOverride : Option String)
       (subs : List (String × CmdNode))

/-- `Command.name()`. -/
def CmdNode.cname : CmdNode → String
  | .mk n _ _ _ => n

/-- `Command.short_help()`. -/
def CmdNode.shortHelp : CmdNode → String
  | .mk _ h _ _ => h

/-- The overriding `long_help`, when the class defines one. -/
def CmdNode.longHelpOverride : CmdNode → Option String
  | .mk _ _ o _ => o

/-- `Command.subcommands`. -/
def CmdNode.subs : CmdNode → List (String × CmdNode)
  | .mk _ _ _ s => s

/-- Lookup of a subcommand by (already lowercased) token; models
`cmd in self.subcommands` plus `self.subcommands[cmd]`. -/
def findSub : List (String × CmdNode) → String → Option CmdNode
  | [], _ => none
  | (k, c) :: rest, key => if k = key then some c else findSub rest key

/-- The base-class `Command.long_help`: the short help when there are no
subcommands, otherwise a header followed by one line per subcommand's
short help. -/
def baseLongHelp (c : CmdNode) : String :=
  match c.subs with
  | [] => c.shortHelp
  | subs => subs.foldl (fun acc p => acc ++ "\n- " ++ p.snd.shortHelp)
      ("**" ++ c.cname ++ "** offers the following services:")

/-- `long_help` as resolved by Python dynamic dispatch: the override when
the class defines one, the base implementation otherwise. -/
def effLongHelp (c : CmdNode) : String :=
  c.longHelpOverride.getD (baseLongHelp c)

/-- Outcome of `Command.execute`: either some node's `execute_direct` is
invoked with the remaining tokens, or a help/error message is sent and no
action executes. -/
inductive ExecOutcome where
  | direct (c : CmdNode) (args : List String)
  | message (text : String)

/-- Fuel-indexed body of `Command.execute`. Each recursive dispatch into a
subcommand consumes one input token, so with `fuel = input.length` the
zero-fuel branch is never reached. -/
def executeFuel : Nat → CmdNode → List String → ExecOutcome
  | fuel, c, input =>
    match c.subs with
    | [] => .direct c input
    | _ :: _ =>
      match input with
      | [] => .message ("Missing sub-command:\n" ++ effLongHelp c)
      | tok :: rest =>
        match findSub c.subs (strLower tok) with
        | none => .message ("Not a valid sub-command:\n" ++ effLongHelp c)
        | some sub =>
          match fuel with
          | 0 => .direct sub rest
          | f + 1 => executeFuel f sub rest

/-- `Command.execute`: run directly when there are no subcommands,
otherwise dispatch on the first token (lowercased). -/
def CmdNode.execute (c : CmdNode) (input : List String) : ExecOutcome :=
  executeFuel input.length c input

/-- `CmdMotion.CmdMotionList`. -/
def listNode : CmdNode :=
  .mk "list" "**motion list** - List running motions" none []

/-- `CmdMotion.CmdMotionNew`. -/
def newNode : CmdNode :=
  .mk "new" "**motion new** - File a new motion" none []

/-- `CmdMotion` with its two registered subcommands. -/
def motionNode : CmdNode :=
  .mk "motion" "**motion** - Interact with motions" none
    [("list", listNode), ("new", newNode)]

/-- `CmdHelp`, which overrides `long_help`. -/
def helpNode : CmdNode :=
  .mk "help" "**help** - Help with operating this bot. Try `help <command>`"
    (some ("`help` - List all commands\n`help <command>` - Show more detailed information for a command"))
    []

/-- `CmdCancel`. -/
def cancelNode : CmdNode :=
  .mk "cancel" "**cancel** - Cancel an ongoing command" none []

/-- `PithosClient.commands` after `__init__` registers help, cancel and
motion, in that order. -/
def registry : List (String × CmdNode) :=
  [("help", helpNode), ("cancel", cancelNode), ("motion", motionNode)]

/-- The state of the bot visible to the modelled operations: the
`PithosClient.flows` dict and the motions stored through the
`liquid_democracy` session. -/
structure PithosState where
  flows : List (Nat × FlowNewMotion)
  motions : List Motion
deriving DecidableEq

/-- `PithosClient.start_flow`: refuse (with a DM hinting at cancel) when
the flow's user already has an active flow, otherwise register the flow. -/
def startFlow (st : PithosState) (cmdPre : String) (fl : FlowNewMotion) :
    PithosState × List BotOutput :=
  match lookupA st.flows fl.userId with
  | some _ =>
    (st, [(MsgTarget.user fl.userId,
      "You are already in a command. Try " ++ cmdPre ++
      "cancel if you want to cancel the current command.")])
  | none => ({ st with flows := setA st.flows fl.userId fl }, [])

/-- `PithosClient.cancel_flow`: delete the user's entry from the flows
dict. -/
def cancelFlow (st : PithosState) (uid : Nat) : PithosState :=
  { st with flows := removeA st.flows uid }

/-- `CmdCancel.execute_direct`. -/
def cmdCancelExec (st : PithosState) (senderId : Nat) : PithosState × List BotOutput :=
  match lookupA st.flows senderId with
  | none => (st, [(MsgTarget.channel, "Nothing to cancel")])
  | some _ => (cancelFlow st senderId, [(MsgTarget.channel, "Cancelled")])

/-- The walk of `CmdHelp.execute_direct` over the remaining tokens:
`done` holds the already-matched tokens in reverse (most recent first). -/
def helpWalk : CmdNode → List String → List String → List BotOutput
  | c, _, [] => [(MsgTarget.channel, effLongHelp c)]
  | c, done, tok :: rest =>
    let cmdStr := strLower tok
    match findSub c.subs cmdStr with
    | none =>
      let soFar := joinSpace done.reverse
      [(MsgTarget.channel,
        "(" ++ soFar ++ ") No such command: " ++ cmdStr ++ " - try \x27help " ++ soFar ++ "\x27?")]
    | some sub => helpWalk sub (tok :: done) rest

/-- The all-commands listing printed by `help` with no arguments: one
short help per registered command, each followed by a newline. -/
def registryShortHelps : String :=
  registry.foldl (fun acc p => acc ++ p.snd.shortHelp ++ "\n") ""

/-- `CmdHelp.execute_direct`. -/
def cmdHelpExec (input : List String) : List BotOutput :=
  match input with
  | [] => [(MsgTarget.channel, registryShortHelps)]
  | first :: rest =>
    let cmdStr := strLower first
    match findSub registry cmdStr with
    | none => [(MsgTarget.channel, "No such command: " ++ cmdStr ++ " - try help")]
    | some c => helpWalk c [first] rest

/-- `CmdMotion.CmdMotionList.execute_direct`: list motions whose expiry is
still in the future. -/
def cmdMotionListExec (st : PithosState) (now : Int) : List BotOutput :=
  let results := st.motions.filter (fun m => now < m.expires)
  if results.isEmpty then [(MsgTarget.channel, "No currently running motions")]
  else [(MsgTarget.channel,
    joinNl (results.map (fun m =>
      descText m.description ++ " - Voting ends " ++ toString m.expires)))]

/-- `CmdMotion.CmdMotionNew.execute_direct`: announce, prompt in DM, then
start the motion-creation flow for the author. -/
def cmdMotionNewExec (st : PithosState) (cmdPre : String) (senderId : Nat)
    (senderName : String) : PithosState × List BotOutput :=
  let o1 : BotOutput := (MsgTarget.channel,
    "Alright! I\x27ll ask you some questions in PM to set up that motion.")
  let o2 : BotOutput := (MsgTarget.user senderId,
    "Please give me a short one- or two-line description of your motion " ++
    "(E.g. \x27Paint all benches green.\x27 or \x27What will we do with all that " ++
    "cotton candy?\x27.")
  let r := startFlow st cmdPre (initFlow senderId senderName)
  (r.fst, [o1, o2] ++ r.snd)

/-- Dynamic dispatch of `execute_direct` on the leaf reached by
`Command.execute`, by class (identified through the node's name). -/
def runDirect (st : PithosState) (cmdPre : String) (senderId : Nat)
    (senderName : String) (now : Int) (c : CmdNode) (args : List String) :
    PithosState × List BotOutput :=
  if c.cname = "help" then (st, cmdHelpExec args)
  else if c.cname = "cancel" then cmdCancelExec st senderId
  else if c.cname = "list" then (st, cmdMotionListExec st now)
  else if c.cname = "new" then cmdMotionNewExec st cmdPre senderId senderName
  else (st, [])

/-- The command branch of `PithosClient.on_message` (everything under the
`startswith(command_prefix)` test), as a standalone function: this is what
"routed through the Command Tree" means. -/
def commandRoute (cmdPre : String) (now : Int) (st : PithosState) (senderId : Nat)
    (senderName : String) (content : String) : PithosState × List BotOutput :=
  match pyTokens (content.toList.drop cmdPre.toList.length) with
  | [] => (st, [(MsgTarget.channel, "Missing command")])
  | first :: args =>
    let cmd := strLower first
    match findSub registry cmd with
    | none =>
      (st, [(MsgTarget.channel, cmd ++ " - No such command. Try " ++ cmdPre ++ "help")])
    | some node =>
      match node.execute args with
      | .direct c dArgs => runDirect st cmdPre senderId senderName now c dArgs
      | .message t => (st, [(MsgTarget.channel, t)])

/-- Delivery of a message to an active flow session (the flow branch of
`PithosClient.on_message`): step the flow, store any created motion, write
the stepped flow back, and evict it when finished. This is what "routed to
the Flow session" means. -/
def flowDeliver (now : Int) (st : PithosState) (senderId : Nat)
    (fl : FlowNewMotion) (content : String) : PithosState × List BotOutput :=
  let r := FlowNewMotion.step fl content now
  let fmap := setA st.flows senderId r.fst
  ({ st with motions := st.motions ++ r.snd.snd.toList,
             flows := if isFinished r.fst then removeA fmap senderId else fmap },
   r.snd.fst)

/-- `PithosClient.on_message`: messages starting with the command prefix
are dispatched through the command tree; other messages are stepped
through the sender's flow when one is active, and ignored otherwise. -/
def onMessage (cmdPre : String) (now : Int) (st : PithosState) (senderId : Nat)
    (senderName : String) (content : String) : PithosState × List BotOutput :=
  if strStarts content cmdPre then
    match pyTokens (content.toList.drop cmdPre.toList.length) with
    | [] => (st, [(MsgTarget.channel, "Missing command")])
    | first :: args =>
      let cmd := strLower first
      match findSub registry cmd with
      | none =>
        (st, [(MsgTarget.channel, cmd ++ " - No such command. Try " ++ cmdPre ++ "help")])
      | some node =>
        match node.execute args with
        | .direct c dArgs => runDirect st cmdPre senderId senderName now c dArgs
        | .message t => (st, [(MsgTarget.channel, t)])
  else
    match lookupA st.flows senderId with
    | some fl =>
      let r := FlowNewMotion.step fl content now
      let fmap := setA st.flows senderId r.fst
      ({ st with motions := st.motions ++ r.snd.snd.toList,
                 flows := if isFinished r.fst then removeA fmap senderId else fmap },
       r.snd.fst)
    | none => (st, [])

/-- Process a list of inbound messages from one sender in order, keeping
the resulting state. -/
def processMessages (cmdPre : String) (now : Int) (senderId : Nat)
    (senderName : String) : PithosState → List String → PithosState
  | st, [] => st
  | st, msg :: rest =>
    processMessages cmdPre now senderId senderName
      (onMessage cmdPre now st senderId senderName msg).fst rest

/-- `DelegationType` from `src/liquid_democracy.py`. -/
inductive DelegationType where
  | TRANSITIVE
  | FIXED
deriving DecidableEq

/-- Modelled from the spec: the Delegation Graph state (spec section 4.1 and
the section 9 design note). `src/liquid_democracy.py` only declares the ORM
columns `delegate_id` / `delegation_type` and the `constituents` backref;
the explicit adjacency structure with a maintained reverse index is the
spec's design. `delegEdges` maps a member to its delegate and delegation
type; `constituents` is the maintained reverse index (who delegates to me). -/
structure DelegGraph where
  delegEdges : List (Nat × (Nat × DelegationType))
  constituents : List (Nat × List Nat)
deriving DecidableEq

/-- `getConstituents(member)`: the member's direct delegators. -/
def DelegGraph.getConstituents (g : DelegGraph) (m : Nat) : List Nat :=
  (lookupA g.constituents m).getD []

/-- Error raised on a self-delegation attempt (spec section 7 taxonomy). -/
inductive DelegError where
  | invalidDelegation
deriving DecidableEq

/-- Remove `a` from `d`'s constituent list. -/
def consRemove (cons : List (Nat × List Nat)) (d a : Nat) : List (Nat × List Nat) :=
  setA cons d (((lookupA cons d).getD []).filter (fun x => x ≠ a))

/-- Add `a` to `d`'s constituent list. -/
def consAdd (cons : List (Nat × List Nat)) (d a : Nat) : List (Nat × List Nat) :=
  setA cons d (((lookupA cons d).getD []) ++ [a])

/-- Modelled from the spec: `setDelegate(member, delegate, type)` of spec
section 4.1, absent from `src/liquid_democracy.py` (which only declares the
ORM relationship). Fails with `InvalidDelegation` when `member == delegate`,
leaving the graph unchanged (the user-facing rejection message is delivered
at the chat boundary from the returned error); otherwise removes `member`
from its former delegate's constituents, records the new edge, and adds
`member` to the new delegate's constituents. -/
def setDelegate (g : DelegGraph) (a b : Nat) (t : DelegationType) :
    DelegGraph × Option DelegError :=
  if a = b then (g, some DelegError.invalidDelegation)
  else
    let cons1 := match lookupA g.delegEdges a with
      | some (old, _) => consRemove g.constituents old a
      | none => g.constituents
    ({ delegEdges := setA g.delegEdges a (b, t), constituents := consAdd cons1 b a },
     none)

/-- Modelled from the spec: `clearDelegate(member)` of spec section 4.1,
absent from `src/liquid_democracy.py`: drop the member's delegation edge and
remove it from its former delegate's constituents. -/
def clearDelegate (g : DelegGraph) (a : Nat) : DelegGraph :=
  match lookupA g.delegEdges a with
  | some (old, _) =>
    { delegEdges := removeA g.delegEdges a,
      constituents := consRemove g.constituents old a }
  | none => g

/-- The invariant of spec section 3: the constituents relation is the exact
inverse of the delegate relation. -/
def DelegGraph.Inv (g : DelegGraph) : Prop :=
  ∀ x d : Nat, x ∈ g.getConstituents d ↔ (lookupA g.delegEdges x).map Prod.fst = some d

/-- Modelled from the spec: the delegation-chain walk of the Vote Resolver
(spec section 4.2), which `src/liquid_democracy.py` never implements (the
spec's section 9 open question). A member's direct vote wins; with no
delegate the member abstains; a delegate already on the current path is a
cycle and resolves to abstention; a `FIXED` edge takes the immediate
delegate's direct vote only; a `TRANSITIVE` edge continues the walk.
`fuel` bounds the walk length; every exit is an abstention or a vote, never
an error. Memoization across a resolution pass (spec step 4) is a
performance device and is not modelled. -/
def resolveWalk (graph : Nat → Option (Nat × DelegationType))
    (votes : Nat → Option Nat) : Nat → List Nat → Nat → Option Nat
  | fuel, visited, m =>
    match votes m with
    | some v => some v
    | none =>
      match graph m with
      | none => none
      | some (d, t) =>
        if d ∈ visited then none
        else
          match t with
          | .FIXED => votes d
          | .TRANSITIVE =>
            match fuel with
            | 0 => none
            | f + 1 => resolveWalk graph votes f (d :: visited) d

/-- Modelled from the spec: `EffectiveVote(m)` of spec section 4.2. -/
def effectiveVote (fuel : Nat) (graph : Nat → Option (Nat × DelegationType))
    (votes : Nat → Option Nat) (m : Nat) : Option Nat :=
  resolveWalk graph votes fuel [m] m

/-- A three-member delegation cycle with no direct votes, for concrete
evaluation. -/
def cycGraph : Nat → Option (Nat × DelegationType) := fun m =>
  if m = 0 then some (1, DelegationType.TRANSITIVE)
  else if m = 1 then some (2, DelegationType.FIXED)
  else if m = 2 then some (0, DelegationType.TRANSITIVE)
  else none

/-- The empty vote assignment. -/
def noVotes : Nat → Option Nat := fun _ => none

/-- Concatenation of a list of strings, for stating the one-line-per-child
shape of the base `long_help`. -/
def strConcat : List String → String
  | [] => ""
  | s :: rest => s ++ strConcat rest

/-- The option-count invariant of the motion wizard: by phase 2 at least
one option has been collected, from phase 3 on at least two. -/
def FlowInv (f : FlowNewMotion) : Prop :=
  (f.phase = 2 → 1 ≤ f.options.length) ∧ (3 ≤ f.phase → 2 ≤ f.options.length)

theorem lookupA_setA_self {α : Type} (l : List (Nat × α)) (k : Nat) (v : α) :
    lookupA (setA l k v) k = some v := by
  induction l with
  | nil => simp [setA, lookupA]
  | cons p rest ih =>
    obtain ⟨k0, v0⟩ := p
    by_cases h : k0 = k <;> simp [setA, lookupA, h, ih]

theorem lookupA_setA_ne {α : Type} (l : List (Nat × α)) (k k' : Nat) (v : α)
    (h : k' ≠ k) : lookupA (setA l k v) k' = lookupA l k' := by
  have h' : ¬k = k' := fun e => h e.symm
  induction l with
  | nil => simp [setA, lookupA, h']
  | cons p rest ih =>
    obtain ⟨k0, v0⟩ := p
    by_cases h0 : k0 = k
    · subst h0
      simp [setA, lookupA, h']
    · simp [setA, lookupA, h0, ih]

theorem lookupA_removeA_self {α : Type} (l : List (Nat × α)) (k : Nat) :
    lookupA (removeA l k) k = none := by
  induction l with
  | nil => simp [removeA, lookupA]
  | cons p rest ih =>
    obtain ⟨k0, v0⟩ := p
    by_cases h : k0 = k <;> simp [removeA, lookupA, h, ih]

theorem lookupA_removeA_ne {α : Type} (l : List (Nat × α)) (k k' : Nat)
    (h : k' ≠ k) : lookupA (removeA l k) k' = lookupA l k' := by
  have h' : ¬k = k' := fun e => h e.symm
  induction l with
  | nil => simp [removeA, lookupA]
  | cons p rest ih =>
    obtain ⟨k0, v0⟩ := p
    by_cases h0 : k0 = k
    · subst h0
      simp [removeA, lookupA, h', ih]
    · simp [removeA, lookupA, h0, ih]

theorem mem_consAdd (cons : List (Nat × List Nat)) (b a x d : Nat) :
    x ∈ (lookupA (consAdd cons b a) d).getD [] ↔
      x ∈ (lookupA cons d).getD [] ∨ (d = b ∧ x = a) := by
  by_cases h : d = b
  · subst h
    simp [consAdd, lookupA_setA_self]
  · rw [consAdd, lookupA_setA_ne _ _ _ _ h]
    simp [h]

theorem mem_consRemove (cons : List (Nat × List Nat)) (old a x d : Nat) :
    x ∈ (lookupA (consRemove cons old a) d).getD [] ↔
      x ∈ (lookupA cons d).getD [] ∧ ¬(d = old ∧ x = a) := by
  by_cases h : d = old
  · subst h
    simp [consRemove, lookupA_setA_self, List.mem_filter]
  · rw [consRemove, lookupA_setA_ne _ _ _ _ h]
    simp [h]

/-- The empty delegation graph satisfies the inverse invariant. -/
theorem delegGraphEmpty_inv : (DelegGraph.mk [] []).Inv := by
  intro x d
  simp [DelegGraph.getConstituents, DelegGraph.Inv, lookupA]

theorem setDelegate_inv (g : DelegGraph) (a b : Nat) (t : DelegationType)
    (hinv : g.Inv) : ((setDelegate g a b t).fst).Inv := by
  by_cases hab : a = b
  · simpa [setDelegate, hab] using hinv
  · intro x d
    rw [setDelegate, if_neg hab]
    show x ∈ (lookupA _ d).getD [] ↔ _
    by_cases hx : x = a
    · subst hx
      rw [lookupA_setA_self]
      cases hL : lookupA g.delegEdges x with
      | none =>
        have hbase : ¬x ∈ (lookupA g.constituents d).getD [] := by
          intro hmem
          have h2 := (hinv x d).mp hmem
          rw [hL] at h2
          simp at h2
        simp only [hL, mem_consAdd, Option.map_some]
        simp [hbase]
        omega
      | some p =>
        obtain ⟨old, t0⟩ := p
        have hbase : x ∈ (lookupA g.constituents d).getD [] ↔ old = d := by
          have h2 := hinv x d
          rw [hL] at h2
          simpa using h2
        simp only [hL, mem_consAdd, mem_consRemove, Option.map_some]
        simp [hbase]
        omega
    · rw [lookupA_setA_ne _ _ _ _ hx, ← hinv x d]
      cases hL : lookupA g.delegEdges a with
      | none =>
        simp only [hL, mem_consAdd]
        simp [hx, DelegGraph.getConstituents]
      | some p =>
        obtain ⟨old, t0⟩ := p
        simp only [hL, mem_consAdd, mem_consRemove]
        simp [hx, DelegGraph.getConstituents]

theorem foldl_helpLines :
    ∀ (l : List (String × CmdNode)) (acc : String),
      l.foldl (fun acc p => acc ++ "\n- " ++ p.snd.shortHelp) acc =
        acc ++ strConcat (l.map (fun p => "\n- " ++ p.snd.shortHelp))
  | [], acc => by simp [strConcat, String.append_empty]
  | p :: rest, acc => by
    simp only [List.foldl, List.map, strConcat]
    rw [foldl_helpLines rest]
    simp [String.append_assoc]

/-- In a voteless region of the delegation graph that is closed under the
delegate relation, the resolver's walk can only abstain, whatever the fuel
and the path so far. -/
theorem resolveWalk_none_of_closed (graph : Nat → Option (Nat × DelegationType))
    (votes : Nat → Option Nat) (S : List Nat)
    (hv : ∀ m ∈ S, votes m = none)
    (hs : ∀ m ∈ S, ∃ d t, graph m = some (d, t) ∧ d ∈ S) :
    ∀ fuel visited m, m ∈ S → resolveWalk graph votes fuel visited m = none := by
  intro fuel
  induction fuel with
  | zero =>
    intro visited m hm
    obtain ⟨d, t, hedge, hdS⟩ := hs m hm
    rw [resolveWalk, hv m hm, hedge]
    cases t <;> by_cases hvis : d ∈ visited <;> simp [hvis, hv d hdS]
  | succ _ ih =>
    intro visited m hm
    obtain ⟨d, t, hedge, hdS⟩ := hs m hm
    rw [resolveWalk, hv m hm, hedge]
    cases t <;> by_cases hvis : d ∈ visited <;>
      simp [hvis, hv d hdS, ih (d :: visited) d hdS]

theorem flowInv_init (uid : Nat) (uname : String) : FlowInv (initFlow uid uname) := by
  simp [FlowInv, initFlow]

theorem flowInv_step (f : FlowNewMotion) (input : String) (now : Int)
    (h : FlowInv f) : FlowInv (FlowNewMotion.step f input now).fst := by
  obtain ⟨h2, h3⟩ := h
  by_cases p0 : f.phase = 0
  · simp [FlowNewMotion.step, p0, FlowInv]
  · by_cases p1 : f.phase = 1
    · simp [FlowNewMotion.step, p0, p1, FlowInv]
    · by_cases p2 : f.phase = 2
      · simp [FlowNewMotion.step, p0, p1, p2, FlowInv]
        omega
      · by_cases p3 : f.phase = 3
        · by_cases hdone : strLower input = "done"
          · simp [FlowNewMotion.step, p0, p1, p2, p3, hdone, FlowInv]
            omega
          · simp [FlowNewMotion.step, p0, p1, p2, p3, hdone, FlowInv]
            omega
        · by_cases p4 : f.phase = 4
          · cases hp : parsePyInt input with
            | none =>
              simp [FlowNewMotion.step, p0, p1, p2, p3, p4, hp, FlowInv]
              omega
            | some d =>
              simp [FlowNewMotion.step, p0, p1, p2, p3, p4, hp, FlowInv]
              omega
          · simp [FlowNewMotion.step, p0, p1, p2, p3, p4, FlowInv]
            omega

theorem flowInv_run (now : Int) :
    ∀ (inputs : List String) (f : FlowNewMotion),
      FlowInv f → FlowInv (runFlowState now f inputs)
  | [], _, h => h
  | i :: rest, f, h =>
    flowInv_run now rest (FlowNewMotion.step f i now).fst (flowInv_step f i now h)

theorem clearDelegate_inv (g : DelegGraph) (a : Nat) (hinv : g.Inv) :
    (clearDelegate g a).Inv := by
  cases hL : lookupA g.delegEdges a with
  | none => simpa [clearDelegate, hL] using hinv
  | some p =>
    obtain ⟨old, t0⟩ := p
    intro x d
    rw [clearDelegate, hL]
    show x ∈ (lookupA _ d).getD [] ↔ _
    by_cases hx : x = a
    · subst hx
      rw [lookupA_removeA_self]
      have hbase : x ∈ (lookupA g.constituents d).getD [] ↔ old = d := by
        have h2 := hinv x d
        rw [hL] at h2
        simpa using h2
      simp only [mem_consRemove]
      simp [hbase]
      omega
    · rw [lookupA_removeA_ne _ _ _ hx, ← hinv x d]
      simp only [mem_consRemove]
      simp [hx, DelegGraph.getConstituents]

/-- C3: for every member m, attempting to set m's delegate to m itself
fails with InvalidDelegation and causes no state change: the unchanged
graph (same delegate edges and constituent sets) is returned together with
the error, from which the user-facing rejection message is produced. -/
theorem c3_self_delegation_rejected (g : DelegGraph) (m : Nat) (t : DelegationType) :
    setDelegate g m m t = (g, some DelegError.invalidDelegation) := by
  simp [setDelegate]

/-- C9 as stated fails when a member re-delegates to its current delegate:
starting from the graph where member 1 already delegates to member 2,
after setDelegate(1, 2, TRANSITIVE) the previous delegate of 1 (which is 2)
still has 1 among its constituents, contradicting "the constituents of A's
previous delegate no longer contain A". -/
theorem c9_counterexample :
    (lookupA ((setDelegate ⟨[], []⟩ 1 2 DelegationType.TRANSITIVE).fst.delegEdges) 1).map
        Prod.fst = some 2
    ∧ 1 ∈ ((setDelegate (setDelegate ⟨[], []⟩ 1 2 DelegationType.TRANSITIVE).fst
        1 2 DelegationType.TRANSITIVE).fst.getConstituents 2) := by
  decide

/-- C9 (amended): on a graph satisfying the inverse invariant, for members
A ≠ B, setDelegate(A, B, t) succeeds, afterwards B's constituents contain
A, A's previous delegate — if any and if different from B — no longer
contains A, and the constituents relation remains the exact inverse of the
delegate relation after every mutation (successful setDelegate, rejected
self-delegation, and clearDelegate). -/
theorem c9_constituents_amended (g : DelegGraph) (a b : Nat) (t : DelegationType)
    (hinv : g.Inv) (hab : a ≠ b) :
    (setDelegate g a b t).snd = none
    ∧ a ∈ (setDelegate g a b t).fst.getConstituents b
    ∧ (∀ old, (lookupA g.delegEdges a).map Prod.fst = some old → old ≠ b →
        a ∉ (setDelegate g a b t).fst.getConstituents old)
    ∧ ((setDelegate g a b t).fst).Inv
    ∧ ((setDelegate g a a t).fst).Inv
    ∧ (∀ c, (clearDelegate g c).Inv) := by
  have hset : ((setDelegate g a b t).fst).Inv := setDelegate_inv g a b t hinv
  have hedge : lookupA (setDelegate g a b t).fst.delegEdges a = some (b, t) := by
    rw [setDelegate, if_neg hab]
    exact lookupA_setA_self _ _ _
  refine ⟨?_, ?_, ?_, hset, ?_, fun c => clearDelegate_inv g c hinv⟩
  · rw [setDelegate, if_neg hab]
  · exact (hset a b).mpr (by rw [hedge]; rfl)
  · intro old hold hne hmem
    have h2 := (hset a old).mp hmem
    rw [hedge] at h2
    exact hne (Option.some_inj.mp h2).symm
  · simpa [setDelegate] using hinv

/-- Concrete instance of the amended C9 on the empty graph. -/
theorem c9_constituents_amended_witness :
    1 ∈ ((setDelegate ⟨[], []⟩ 1 2 DelegationType.TRANSITIVE).fst.getConstituents 2) :=
  (c9_constituents_amended ⟨[], []⟩ 1 2 DelegationType.TRANSITIVE delegGraphEmpty_inv
    (by decide)).2.1

/-- C4: for every delegation graph containing a cycle — a nonempty list of
members each of which delegates (with either delegation type) to the next,
cyclically — such that no member of the cycle has a direct vote, the
resolver computes EffectiveVote(m) = none (abstention) for every member m
of the cycle, for every fuel bound: resolution terminates on the cycle in
abstention and the cycle is never raised as an error (the resolver has no
error outcome at all). -/
theorem c4_cycle_abstains (graph : Nat → Option (Nat × DelegationType))
    (votes : Nat → Option Nat) (fuel : Nat) (cyc : List Nat) (hne : cyc ≠ [])
    (hedge : ∀ i m1 m2, cyc.get? i = some m1 →
      cyc.get? ((i + 1) % cyc.length) = some m2 → ∃ t, graph m1 = some (m2, t))
    (hvotes : ∀ m ∈ cyc, votes m = none) :
    ∀ m ∈ cyc, effectiveVote fuel graph votes m = none := by
  have hclosed : ∀ m ∈ cyc, ∃ d t, graph m = some (d, t) ∧ d ∈ cyc := by
    intro m hm
    obtain ⟨i, hi⟩ := List.get?_of_mem hm
    have hlen : 0 < cyc.length := List.length_pos.mpr hne
    have hjlt : (i + 1) % cyc.length < cyc.length := Nat.mod_lt _ hlen
    have hj : cyc.get? ((i + 1) % cyc.length) =
        some (cyc.get ⟨(i + 1) % cyc.length, hjlt⟩) := List.get?_eq_get hjlt
    obtain ⟨t, ht⟩ := hedge i m _ hi hj
    exact ⟨_, t, ht, List.get_mem _ _ _⟩
  intro m hm
  exact resolveWalk_none_of_closed graph votes cyc hvotes hclosed fuel [m] m hm

/-- Concrete instance of C4 on the three-member cycle 0 → 1 → 2 → 0 with
no votes. -/
theorem c4_cycle_abstains_witness :
    effectiveVote 10 cycGraph noVotes 1 = none :=
  c4_cycle_abstains cycGraph noVotes 10 [0, 1, 2] (by decide)
    (by
      intro i m1 m2 h1 h2
      match i with
      | 0 =>
        simp [List.get?] at h1 h2
        subst h1; subst h2
        exact ⟨DelegationType.TRANSITIVE, rfl⟩
      | 1 =>
        simp [List.get?] at h1 h2
        subst h1; subst h2
        exact ⟨DelegationType.FIXED, rfl⟩
      | 2 =>
        simp [List.get?] at h1 h2
        subst h1; subst h2
        exact ⟨DelegationType.TRANSITIVE, rfl⟩
      | n + 3 => simp [List.get?] at h1)
    (fun m _ => rfl) 1 (by decide)

/-- C1 as stated fails: in the motion wizard, right after the description
has been supplied (phase 1, zero options collected), the input "done" is
not rejected — it is recorded as option 1 and the phase advances to 2. -/
theorem c1_counterexample :
    (FlowNewMotion.step (FlowNewMotion.step (initFlow 1 "alice") "Paint benches" 0).fst
        "done" 0).fst.phase = 2
    ∧ (FlowNewMotion.step (FlowNewMotion.step (initFlow 1 "alice") "Paint benches" 0).fst
        "done" 0).fst.options = ["done"] := by
  decide

/-- C1 (amended): in every state the wizard reaches before two options have
been supplied (phases 0-2), any input — including "done" — is consumed as
the description or as an option and the phase advances; "done" is honoured
as a finish signal only in phase 3, and every reachable phase-3 state has
at least two options collected. -/
theorem c1_done_amended (inputs : List String) (now : Int) (uid : Nat)
    (uname : String) (input : String) (s : FlowNewMotion)
    (hs : s = runFlowState now (initFlow uid uname) inputs) :
    (s.phase = 0 → FlowNewMotion.step s input now =
      ({ s with description := some input, phase := 1 },
       [(MsgTarget.user s.userId, "Please write a description for option 1")], none))
    ∧ (s.phase = 1 → FlowNewMotion.step s input now =
      ({ s with options := s.options ++ [input], phase := 2 },
       [(MsgTarget.user s.userId, "Please write a description for option 2")], none))
    ∧ (s.phase = 2 → FlowNewMotion.step s input now =
      ({ s with options := s.options ++ [input], phase := 3 },
       [(MsgTarget.user s.userId,
         "Please write a description for option 3, or type \x27done\x27 to finish")], none))
    ∧ (s.phase = 3 → 2 ≤ s.options.length)
    ∧ (s.phase = 3 → strLower input = "done" → FlowNewMotion.step s input now =
      ({ s with phase := 4 },
       [(MsgTarget.user s.userId, "How many days do you want your motion to last?")],
       none)) := by
  subst hs
  have hinv := flowInv_run now inputs (initFlow uid uname) (flowInv_init uid uname)
  refine ⟨?_, ?_, ?_, fun h3 => hinv.2 (le_of_eq h3.symm), ?_⟩
  · intro h
    simp [FlowNewMotion.step, h]
  · intro h
    simp [FlowNewMotion.step, h]
  · intro h
    simp [FlowNewMotion.step, h]
  · intro h hdone
    simp [FlowNewMotion.step, h, hdone]

/-- Concrete instance of the amended C1: "done" fed at phase 1 becomes
option 1 and the wizard moves to phase 2. -/
theorem c1_done_amended_witness :
    FlowNewMotion.step ⟨1, "alice", 1, some "Paint benches", none, []⟩ "done" 0 =
      (⟨1, "alice", 2, some "Paint benches", none, ["done"]⟩,
       [(MsgTarget.user 1, "Please write a description for option 2")], none) :=
  (c1_done_amended ["Paint benches"] 0 1 "alice" "done"
    ⟨1, "alice", 1, some "Paint benches", none, []⟩ rfl).2.1 rfl

/-- C5: feeding "!motion new" and then description "Paint benches",
options "green", "blue", then "done", then "3" stores exactly one motion
with that description, exactly those two options, and expiry now + 3 days
(86400-second days), after which the flow is finished and its session has
been evicted from the flows map. -/
theorem c5_wizard_run (now : Int) :
    (processMessages "!" now 1 "alice" ⟨[], []⟩
        ["!motion new", "Paint benches", "green", "blue", "done", "3"]).motions =
      [{ description := some "Paint benches", expires := now + 3 * 86400,
         options := ["green", "blue"] }]
    ∧ (processMessages "!" now 1 "alice" ⟨[], []⟩
        ["!motion new", "Paint benches", "green", "blue", "done", "3"]).flows = []
    ∧ isFinished (runFlowState now (initFlow 1 "alice")
        ["Paint benches", "green", "blue", "done", "3"]) = true
    ∧ (runFlowState now (initFlow 1 "alice")
        ["Paint benches", "green", "blue", "done", "3"]).options.length = 2 :=
  ⟨rfl, rfl, rfl, rfl⟩

/-- C6: in the duration phase (phase 4), every input that is not a valid
integer sends the corrective message, leaves the flow state completely
unchanged (same phase, next input again treated as the duration, flow not
aborted and not finished), and creates no motion. -/
theorem c6_invalid_duration (s : FlowNewMotion) (input : String) (now : Int)
    (hphase : s.phase = 4) (hparse : parsePyInt input = none) :
    FlowNewMotion.step s input now =
      (s, [(MsgTarget.user s.userId, "Not a valid number")], none)
    ∧ isFinished s = false := by
  constructor
  · simp [FlowNewMotion.step, hphase, hparse]
  · simp [isFinished, hphase]

/-- Concrete instance of C6 at phase 4 with the non-numeric input
"tomorrow". -/
theorem c6_invalid_duration_witness :
    FlowNewMotion.step ⟨1, "alice", 4, some "d", none, ["a", "b"]⟩ "tomorrow" 0 =
      (⟨1, "alice", 4, some "d", none, ["a", "b"]⟩,
       [(MsgTarget.user 1, "Not a valid number")], none)
    ∧ isFinished ⟨1, "alice", 4, some "d", none, ["a", "b"]⟩ = false :=
  c6_invalid_duration ⟨1, "alice", 4, some "d", none, ["a", "b"]⟩ "tomorrow" 0 rfl
    (by decide)

/-- C7: starting a flow for a member who already has an active session
sends that member the are-you-already-in-a-command hint (with the cancel
command spelled with the configured prefix) and leaves the client state —
in particular the existing session with all its accumulated input — completely
unchanged; the new flow is not registered and nothing is overwritten. -/
theorem c7_flow_already_active (st : PithosState) (cmdPre : String)
    (fl existing : FlowNewMotion)
    (h : lookupA st.flows fl.userId = some existing) :
    startFlow st cmdPre fl =
      (st, [(MsgTarget.user fl.userId,
        "You are already in a command. Try " ++ cmdPre ++
        "cancel if you want to cancel the current command.")]) := by
  simp [startFlow, h]

/-- Concrete instance of C7: starting a second flow for member 1, whose
session sits mid-wizard at phase 3, changes nothing. -/
theorem c7_flow_already_active_witness :
    startFlow ⟨[(1, ⟨1, "alice", 3, some "d", none, ["a", "b"]⟩)], []⟩ "!"
        (initFlow 1 "alice") =
      (⟨[(1, ⟨1, "alice", 3, some "d", none, ["a", "b"]⟩)], []⟩,
       [(MsgTarget.user 1,
         "You are already in a command. Try !cancel if you want to cancel the current command.")]) :=
  c7_flow_already_active ⟨[(1, ⟨1, "alice", 3, some "d", none, ["a", "b"]⟩)], []⟩ "!"
    (initFlow 1 "alice") ⟨1, "alice", 3, some "d", none, ["a", "b"]⟩ rfl

/-- C10: the cancel command with no active session for the sender replies
"Nothing to cancel" and leaves the state (in particular the session map)
unchanged; with an active session it replies "Cancelled" and removes
exactly the sender's session: afterwards the sender has no session and
every other member's entry is unchanged. -/
theorem c10_cancel (st : PithosState) (senderId : Nat) :
    (lookupA st.flows senderId = none →
      cmdCancelExec st senderId = (st, [(MsgTarget.channel, "Nothing to cancel")]))
    ∧ (∀ fl, lookupA st.flows senderId = some fl →
      cmdCancelExec st senderId =
        (cancelFlow st senderId, [(MsgTarget.channel, "Cancelled")])
      ∧ lookupA (cancelFlow st senderId).flows senderId = none
      ∧ ∀ other, other ≠ senderId →
          lookupA (cancelFlow st senderId).flows other = lookupA st.flows other) := by
  constructor
  · intro h
    simp [cmdCancelExec, h]
  · intro fl h
    refine ⟨by simp [cmdCancelExec, h], ?_, ?_⟩
    · simp [cancelFlow, lookupA_removeA_self]
    · intro other hne
      simp [cancelFlow, lookupA_removeA_ne _ _ _ hne]

/-- Concrete instance of C10, in both directions: member 1's session is
removed while member 2's survives, and cancelling with no session replies
"Nothing to cancel" leaving the empty state unchanged. -/
theorem c10_cancel_witness :
    (cmdCancelExec ⟨[(1, initFlow 1 "a"), (2, initFlow 2 "b")], []⟩ 1 =
      (cancelFlow ⟨[(1, initFlow 1 "a"), (2, initFlow 2 "b")], []⟩ 1,
       [(MsgTarget.channel, "Cancelled")])
    ∧ lookupA (cancelFlow ⟨[(1, initFlow 1 "a"), (2, initFlow 2 "b")], []⟩ 1).flows 1 = none
    ∧ lookupA (cancelFlow ⟨[(1, initFlow 1 "a"), (2, initFlow 2 "b")], []⟩ 1).flows 2 =
        lookupA (⟨[(1, initFlow 1 "a"), (2, initFlow 2 "b")], []⟩ : PithosState).flows 2)
    ∧ cmdCancelExec ⟨[], []⟩ 5 = (⟨[], []⟩, [(MsgTarget.channel, "Nothing to cancel")]) :=
  let h := (c10_cancel ⟨[(1, initFlow 1 "a"), (2, initFlow 2 "b")], []⟩ 1).2
    (initFlow 1 "a") rfl
  ⟨⟨h.1, h.2.1, h.2.2 2 (by decide)⟩, (c10_cancel ⟨[], []⟩ 5).1 rfl⟩

/-- C2 as stated fails: member 1 has an active flow session (at phase 0),
yet the prefixed message "!help" is not routed to that session — the
session map is left untouched (the flow is never stepped) and the message
is dispatched through the command tree instead. -/
theorem c2_counterexample :
    lookupA (⟨[(1, initFlow 1 "alice")], []⟩ : PithosState).flows 1 ≠ none
    ∧ onMessage "!" 0 ⟨[(1, initFlow 1 "alice")], []⟩ 1 "alice" "!help" ≠
        flowDeliver 0 ⟨[(1, initFlow 1 "alice")], []⟩ 1 (initFlow 1 "alice") "!help"
    ∧ (onMessage "!" 0 ⟨[(1, initFlow 1 "alice")], []⟩ 1 "alice" "!help").fst =
        ⟨[(1, initFlow 1 "alice")], []⟩ := by
  refine ⟨by decide, by decide, by decide⟩

/-- C2 (amended): routing in on_message is decided by the command prefix,
not by session existence. A message that does not start with the prefix is
delivered to the sender's flow session when one exists and is ignored
otherwise; a message starting with the prefix is dispatched through the
command tree even when the sender has an active session. -/
theorem c2_routing_amended (cmdPre : String) (now : Int) (st : PithosState)
    (senderId : Nat) (senderName : String) (content : String) (fl : FlowNewMotion) :
    (strStarts content cmdPre = false → lookupA st.flows senderId = some fl →
      onMessage cmdPre now st senderId senderName content =
        flowDeliver now st senderId fl content)
    ∧ (strStarts content cmdPre = false → lookupA st.flows senderId = none →
      onMessage cmdPre now st senderId senderName content = (st, []))
    ∧ (strStarts content cmdPre = true →
      onMessage cmdPre now st senderId senderName content =
        commandRoute cmdPre now st senderId senderName content) := by
  refine ⟨?_, ?_, ?_⟩
  · intro hs hq
    simp [onMessage, flowDeliver, hs, hq]
  · intro hs hq
    simp [onMessage, hs, hq]
  · intro hs
    simp [onMessage, commandRoute, hs]

/-- Concrete instance of the amended C2: the non-prefixed message "hi"
from session-holding member 1 is delivered to that member's flow. -/
theorem c2_routing_amended_witness :
    onMessage "!" 0 ⟨[(1, initFlow 1 "alice")], []⟩ 1 "alice" "hi" =
      flowDeliver 0 ⟨[(1, initFlow 1 "alice")], []⟩ 1 (initFlow 1 "alice") "hi" :=
  (c2_routing_amended "!" 0 ⟨[(1, initFlow 1 "alice")], []⟩ 1 "alice" "hi"
    (initFlow 1 "alice")).1 rfl rfl

/-- C8: for every command node with children (all of which use the
base-class long_help in this program): the first remaining token,
lowercased — matching the registered lowercase child names
case-insensitively — selects the matching child, which continues dispatch
on the remaining tokens; when no token remains or the token matches no
child, dispatch produces a help message listing the node's children, one
line per child's short help, and executes no action. -/
theorem c8_dispatch (c : CmdNode) (tok : String) (rest : List String)
    (sub : CmdNode) (hsubs : c.subs ≠ []) (hov : c.longHelpOverride = none) :
    (findSub c.subs (strLower tok) = some sub →
      CmdNode.execute c (tok :: rest) = CmdNode.execute sub rest)
    ∧ (findSub c.subs (strLower tok) = none →
      CmdNode.execute c (tok :: rest) =
        ExecOutcome.message ("Not a valid sub-command:\n" ++ baseLongHelp c))
    ∧ (CmdNode.execute c [] =
        ExecOutcome.message ("Missing sub-command:\n" ++ baseLongHelp c))
    ∧ (baseLongHelp c =
        "**" ++ c.cname ++ "** offers the following services:" ++
          strConcat (c.subs.map (fun p => "\n- " ++ p.snd.shortHelp))) := by
  obtain ⟨n, sh, lo, subs⟩ := c
  simp only [CmdNode.longHelpOverride] at hov
  subst hov
  cases subs with
  | nil => simp [CmdNode.subs] at hsubs
  | cons p ss =>
    refine ⟨?_, ?_, ?_, ?_⟩
    · intro hfind
      simp only [CmdNode.subs] at hfind
      simp [CmdNode.execute, executeFuel, CmdNode.subs, hfind]
    · intro hfind
      simp only [CmdNode.subs] at hfind
      simp [CmdNode.execute, executeFuel, CmdNode.subs, hfind, effLongHelp,
        CmdNode.longHelpOverride]
    · simp [CmdNode.execute, executeFuel, CmdNode.subs, effLongHelp,
        CmdNode.longHelpOverride]
    · simp only [baseLongHelp, CmdNode.subs, CmdNode.cname]
      exact foldl_helpLines (p :: ss) _

/-- Concrete instance of C8 on the motion node: the differently-cased
token "LIST" selects the list child, an unknown token and a missing token
produce the children listing, which is one line per child. -/
theorem c8_dispatch_witness :
    (CmdNode.execute motionNode ["LIST"] = CmdNode.execute listNode []
    ∧ CmdNode.execute motionNode ["xyz"] =
        ExecOutcome.message ("Not a valid sub-command:\n" ++ baseLongHelp motionNode)
    ∧ CmdNode.execute motionNode [] =
        ExecOutcome.message ("Missing sub-command:\n" ++ baseLongHelp motionNode))
    ∧ baseLongHelp motionNode =
        "**motion** offers the following services:" ++
          ("\n- **motion list** - List running motions" ++
           ("\n- **motion new** - File a new motion" ++ "")) :=
  let h1 := c8_dispatch motionNode "LIST" [] listNode (by simp [motionNode, CmdNode.subs])
    (by rfl)
  let h2 := c8_dispatch motionNode "xyz" [] listNode (by simp [motionNode, CmdNode.subs])
    (by rfl)
  ⟨⟨h1.1 rfl, h2.2.1 rfl, h1.2.2.1⟩, h1.2.2.2⟩
